import Mathlib

/-!
Shallow embedding of the ga-synth repository (a Rust library that searches
synthesizer parameter sets with a genetic algorithm and a hill climber),
together with proofs about the embedded operations.

Modelling conventions:
- `f32` scalars that are only moved, compared, blended and stored are modelled
  by `ℚ` (every `f32` value is rational), keeping the definitions executable.
- `f32` values that flow through `exp` / `log10` / `sqrt` are modelled by `ℝ`.
- Calls into the thread-local random number generator are modelled by explicit
  draw parameters (the code's randomness is external input).
- A Rust panic (`todo!()`, `expect`) is modelled by `Option`, with `none` for
  the panicking computation.
-/

namespace GaSynth

/-! ## src/utils.rs -/

/-- Models `utils::sigmoid`: `1.0 / (1.0 + (-x).exp())`. -/
noncomputable def sigmoid (x : ℝ) : ℝ := 1 / (1 + Real.exp (-x))

/-- Models `utils::mean`: `values.iter().sum() / values.len()`. -/
noncomputable def mean (values : List ℝ) : ℝ := values.sum / values.length

/-- Models `utils::std` exactly as written in the source:
`mean(values.map(|f| f.powi(2))) - mean(values).powi(2)`
(note: the source computes no square root). -/
noncomputable def std (values : List ℝ) : ℝ :=
  mean (values.map (fun f => f ^ 2)) - mean values ^ 2

/-- Modelled from the spec: the fitness standard deviation, the square root of
the mean of squared deviations from the mean. Used to compare the spec's words
against `std` as implemented. -/
noncomputable def standard_deviation_spec (values : List ℝ) : ℝ :=
  Real.sqrt (mean (values.map (fun f => (f - mean values) ^ 2)))

/-- Random draws consumed by one call to `utils::random_weighted_average`:
`beta` and `mutation` are the two uniform draws from `thread_rng`, and
`random_val` is the caller-supplied replacement value. -/
structure RWDraw where
  beta : ℚ
  mutation : ℚ
  random_val : ℚ

/-- Models `utils::random_weighted_average`: if the mutation coin is below the
mutation rate the random replacement value is returned, otherwise a weighted
average `beta * v_self + (1 - beta) * v_other`. -/
def random_weighted_average (v_self v_other r : ℚ) (d : RWDraw) : ℚ :=
  if d.mutation < r then d.random_val else d.beta * v_self + (1 - d.beta) * v_other

/-! ## src/signal_processing (Signal, signal_analysis.rs) -/

/-- Models `signal_processing::SAMPLE_RATE`. -/
def SAMPLE_RATE : ℕ := 44100

/-- Models `Signal::normalise` (signal_analysis.rs): a signal with at least
16384 samples is truncated to its first 16384 samples, a shorter one is
extended with trailing `0.0` samples up to 16384. -/
def normalise (s : List ℚ) : List ℚ :=
  if 16384 ≤ s.length then s.take 16384
  else s ++ List.replicate (16384 - s.length) 0

/-- Models `Signal::freq_spectrum_mse` on the magnitude spectra produced by the
external FFT: the sum of squared differences over the zipped spectra divided by
the length of the first spectrum. -/
def freq_spectrum_mse (selfSpectrum otherSpectrum : List ℚ) : ℚ :=
  ((selfSpectrum.zip otherSpectrum).map (fun p => (p.1 - p.2) ^ 2)).sum
    / selfSpectrum.length

/-- Models `Signal::euclidean_distance`: square root of the sum of squared
pairwise sample differences. -/
noncomputable def euclidean_distance (a b : List ℚ) : ℝ :=
  Real.sqrt (((a.zip b).map (fun p => (p.1 - p.2) ^ 2)).sum : ℚ)

/-- Models `Individual::freq_domain_mse_fitness` (genetic.rs) applied to the
two magnitude spectra: `cost = exp(log10(mse / 1000))`, fitness
`2 * sigmoid(-cost)`. -/
noncomputable def freq_domain_mse_fitness (selfSpectrum otherSpectrum : List ℚ) : ℝ :=
  let mse : ℝ := (freq_spectrum_mse selfSpectrum otherSpectrum : ℚ)
  let cost := Real.exp (Real.logb 10 (mse / 1000))
  2 * sigmoid (-cost)

/-- Models `Individual::time_domain_euclidean_fitness` (genetic.rs):
`cost = exp(log10(distance / 500))`, fitness `2 * sigmoid(-cost)`. -/
noncomputable def time_domain_euclidean_fitness (a b : List ℚ) : ℝ :=
  let distance := euclidean_distance a b
  let cost := Real.exp (Real.logb 10 (distance / 500))
  2 * sigmoid (-cost)

/-! ## src/simulation/components -/

/-- Models `FitnessType` (lib.rs). -/
inductive FitnessType
  | FreqDomainMSE
  | TimeDomainEuclidean

/-- Models `OscillatorComponent` (components/oscillator.rs). -/
structure OscillatorComponent where
  freq : ℚ
  sine_amp : ℚ
  sine_phase : ℚ
  square_amp : ℚ
  square_phase : ℚ
  saw_amp : ℚ
  saw_phase : ℚ

/-- Models `OscillatorComponent::combine`: always returns `Some`, blending each
of the seven parameters with `random_weighted_average` (one draw each). -/
def OscillatorComponent.combine (self other : OscillatorComponent) (mutation_rate : ℚ)
    (d : Fin 7 → RWDraw) : Option OscillatorComponent :=
  some
    { freq := random_weighted_average self.freq other.freq mutation_rate (d 0)
      sine_amp := random_weighted_average self.sine_amp other.sine_amp mutation_rate (d 1)
      sine_phase := random_weighted_average self.sine_phase other.sine_phase mutation_rate (d 2)
      square_amp := random_weighted_average self.square_amp other.square_amp mutation_rate (d 3)
      square_phase := random_weighted_average self.square_phase other.square_phase mutation_rate (d 4)
      saw_amp := random_weighted_average self.saw_amp other.saw_amp mutation_rate (d 5)
      saw_phase := random_weighted_average self.saw_phase other.saw_phase mutation_rate (d 6) }

/-- Models `EnvelopeComponent` (components/envelope.rs): attack, decay and
release in milliseconds (`u32`), sustain level (`u8`). -/
structure EnvelopeComponent where
  attack : ℕ
  decay : ℕ
  sustain : ℕ
  release : ℕ

/-- Models the Rust `as u32` cast applied to an `f32`: truncate toward zero and
saturate at the bounds of `u32`. -/
def f32_as_u32 (q : ℚ) : ℕ := min (Int.toNat ⌊q⌋) (2 ^ 32 - 1)

/-- Models the Rust `as u8` cast applied to an `f32`: truncate toward zero and
saturate at the bounds of `u8`. -/
def f32_as_u8 (q : ℚ) : ℕ := min (Int.toNat ⌊q⌋) 255

/-- Models `EnvelopeComponent::combine`: always `Some`, each field blended as
`f32` and cast back to its integer type. -/
def EnvelopeComponent.combine (self other : EnvelopeComponent) (r : ℚ)
    (d : Fin 4 → RWDraw) : Option EnvelopeComponent :=
  some
    { attack := f32_as_u32 (random_weighted_average (self.attack : ℚ) (other.attack : ℚ) r (d 0))
      decay := f32_as_u32 (random_weighted_average (self.decay : ℚ) (other.decay : ℚ) r (d 1))
      sustain := f32_as_u8 (random_weighted_average (self.sustain : ℚ) (other.sustain : ℚ) r (d 2))
      release := f32_as_u32 (random_weighted_average (self.release : ℚ) (other.release : ℚ) r (d 3)) }

/-- Models `EnvelopeComponent::evolve`, whose body is `todo!()` in the source:
it panics unconditionally for every receiver and step size. The panic is
modelled as `none`. -/
def EnvelopeComponent.evolve (_e : EnvelopeComponent) (_step_size : ℚ) :
    Option EnvelopeComponent :=
  none

/-- Models `FilterComponent` (components/filters.rs). -/
inductive FilterComponent
  | LowPass (cutoff_freq band : ℚ)
  | HighPass (cutoff_freq band : ℚ)
  | BandPass (low_freq high_freq band : ℚ)
  | BandReject (low_freq high_freq band : ℚ)

/-- Models `FilterComponent::combine`: two filters of the same family blend
parameter-wise (band edges re-sorted so the low edge stays below the high
edge); any mismatched pair of families returns `None`. -/
def FilterComponent.combine (self other : FilterComponent) (mutation_rate : ℚ)
    (d : Fin 3 → RWDraw) : Option FilterComponent :=
  match self, other with
  | .LowPass sc sb, .LowPass oc ob =>
      some (.LowPass (random_weighted_average sc oc mutation_rate (d 0))
        (random_weighted_average sb ob mutation_rate (d 1)))
  | .HighPass sc sb, .HighPass oc ob =>
      some (.HighPass (random_weighted_average sc oc mutation_rate (d 0))
        (random_weighted_average sb ob mutation_rate (d 1)))
  | .BandPass sl sh sb, .BandPass ol oh ob =>
      let freq_1 := random_weighted_average sl ol mutation_rate (d 0)
      let freq_2 := random_weighted_average sh oh mutation_rate (d 1)
      let lowHigh := if freq_1 < freq_2 then (freq_1, freq_2) else (freq_2, freq_1)
      some (.BandPass lowHigh.1 lowHigh.2 (random_weighted_average sb ob mutation_rate (d 2)))
  | .BandReject sl sh sb, .BandReject ol oh ob =>
      let freq_1 := random_weighted_average sl ol mutation_rate (d 0)
      let freq_2 := random_weighted_average sh oh mutation_rate (d 1)
      let lowHigh := if freq_1 < freq_2 then (freq_1, freq_2) else (freq_2, freq_1)
      some (.BandReject lowHigh.1 lowHigh.2 (random_weighted_average sb ob mutation_rate (d 2)))
  | _, _ => none

/-- Models `HarmonicsComponent` (components/harmonics.rs). -/
structure HarmonicsComponent where
  freq : ℚ
  amplitudes : List ℚ

/-- Models `HarmonicsComponent::combine`: always `Some`, blending the
fundamental and each zipped amplitude with `random_weighted_average`. -/
def HarmonicsComponent.combine (self other : HarmonicsComponent) (r : ℚ)
    (dFreq : RWDraw) (dAmp : ℕ → RWDraw) : Option HarmonicsComponent :=
  some
    { freq := random_weighted_average self.freq other.freq r dFreq
      amplitudes :=
        (self.amplitudes.zip other.amplitudes).enum.map
          (fun p => random_weighted_average p.2.1 p.2.2 r (dAmp p.1)) }

/-! ## src/simulation/synthesis_methods/additive.rs -/

/-- Models `AdditiveIndividual`: shared target signal, fitness-metric selector,
lazily cached fitness, and an optional harmonics component. -/
structure AdditiveIndividual where
  target : List ℚ
  fitness_type : FitnessType
  fitness : Option ℚ
  harmonics : Option HarmonicsComponent

/-- Models `AdditiveIndividual::harmonics_are_valid`: every partial frequency
`freq * i` for `i` in `1..=amplitudes.len()` must stay strictly below the
Nyquist frequency `SAMPLE_RATE / 2`; an individual without a harmonics
component is vacuously valid. -/
def AdditiveIndividual.harmonics_are_valid (ind : AdditiveIndividual) : Bool :=
  match ind.harmonics with
  | some harmonics =>
      (List.range' 1 harmonics.amplitudes.length).all
        (fun i => decide (harmonics.freq * (i : ℚ) < (SAMPLE_RATE : ℚ) / 2))
  | none => true

/-- Models the method `AdditiveIndividual::fitness`: return the cached fitness
when present, otherwise compute it, scoring an invalid-harmonics genome as 0.
The metric evaluation (render + FFT + score) is the external computation
`calculate_fitness`. -/
def AdditiveIndividual.fitnessOf (calculate_fitness : AdditiveIndividual → ℚ)
    (ind : AdditiveIndividual) : ℚ :=
  match ind.fitness with
  | some f => f
  | none => if ind.harmonics_are_valid then calculate_fitness ind else 0

/-- Models `AdditiveIndividual::include_fitness`: cache the computed fitness,
which is 0 when the harmonics are invalid. -/
def AdditiveIndividual.include_fitness (calculate_fitness : AdditiveIndividual → ℚ)
    (ind : AdditiveIndividual) : AdditiveIndividual :=
  if ind.harmonics_are_valid then { ind with fitness := some (calculate_fitness ind) }
  else { ind with fitness := some 0 }

/-- Models `AdditiveIndividual::crossover`: combine the harmonics when both
parents carry one (else the gene is absent), then return `Some` offspring with
`include_fitness` applied. -/
def AdditiveIndividual.crossover (calculate_fitness : AdditiveIndividual → ℚ)
    (self other : AdditiveIndividual) (r : ℚ) (dFreq : RWDraw) (dAmp : ℕ → RWDraw) :
    Option AdditiveIndividual :=
  let harmonics :=
    match self.harmonics, other.harmonics with
    | some s, some o => s.combine o r dFreq dAmp
    | _, _ => none
  some (AdditiveIndividual.include_fitness calculate_fitness
    { target := self.target, fitness_type := self.fitness_type, fitness := none,
      harmonics := harmonics })

/-! ## src/simulation/synthesis_methods/subtractive.rs -/

/-- Models `SubtractiveIndividual`: shared target signal, fitness-metric
selector, lazily cached fitness, optional oscillator, envelope and filter. -/
structure SubtractiveIndividual where
  target : List ℚ
  fitness_type : FitnessType
  fitness : Option ℚ
  oscillator : Option OscillatorComponent
  envelope : Option EnvelopeComponent
  filter : Option FilterComponent

/-- Models `SubtractiveIndividual::include_fitness`: cache the computed
fitness; the metric evaluation is the external computation
`calculate_fitness`. -/
def SubtractiveIndividual.include_fitness (calculate_fitness : SubtractiveIndividual → ℚ)
    (ind : SubtractiveIndividual) : SubtractiveIndividual :=
  { ind with fitness := some (calculate_fitness ind) }

/-- Models `SubtractiveIndividual::crossover`: per component, combine when both
parents carry it (the per-kind combine may itself return `None`, leaving the
gene absent), then always return `Some` offspring with `include_fitness`
applied. -/
def SubtractiveIndividual.crossover (calculate_fitness : SubtractiveIndividual → ℚ)
    (self other : SubtractiveIndividual) (r : ℚ)
    (dOsc : Fin 7 → RWDraw) (dEnv : Fin 4 → RWDraw) (dFil : Fin 3 → RWDraw) :
    Option SubtractiveIndividual :=
  let oscillator :=
    match self.oscillator, other.oscillator with
    | some s, some o => s.combine o r dOsc
    | _, _ => none
  let envelope :=
    match self.envelope, other.envelope with
    | some s, some o => s.combine o r dEnv
    | _, _ => none
  let filter :=
    match self.filter, other.filter with
    | some s, some o => s.combine o r dFil
    | _, _ => none
  some (SubtractiveIndividual.include_fitness calculate_fitness
    { target := self.target, fitness_type := self.fitness_type, fitness := none,
      oscillator := oscillator, envelope := envelope, filter := filter })

/-- Models `SubtractiveIndividual::evolve`. The oscillator and filter
evolutions draw from the thread-local generator and are modelled as the
external functions `oscEvolve` and `filterEvolve`; the envelope evolution is
`EnvelopeComponent.evolve`, which panics (`none`), and its panic propagates:
the whole `evolve` diverges whenever the envelope component is present. -/
def SubtractiveIndividual.evolve (oscEvolve : OscillatorComponent → OscillatorComponent)
    (filterEvolve : FilterComponent → FilterComponent)
    (calculate_fitness : SubtractiveIndividual → ℚ)
    (self : SubtractiveIndividual) (step_size : ℚ) : Option SubtractiveIndividual :=
  match self.envelope with
  | none =>
      some (SubtractiveIndividual.include_fitness calculate_fitness
        { target := self.target, fitness_type := self.fitness_type, fitness := none,
          oscillator := self.oscillator.map oscEvolve, envelope := none,
          filter := self.filter.map filterEvolve })
  | some env =>
      (EnvelopeComponent.evolve env step_size).map (fun e =>
        SubtractiveIndividual.include_fitness calculate_fitness
          { target := self.target, fitness_type := self.fitness_type, fitness := none,
            oscillator := self.oscillator.map oscEvolve, envelope := some e,
            filter := self.filter.map filterEvolve })

/-! ## src/simulation/algorithms/genetic.rs -/

/-- Models `PopulationEvolution`. -/
inductive PopulationEvolution
  | Constant
  | Increasing

/-- Models the survivor count chosen in `GASimulation::next`: half the initial
population in `Constant` mode, half the current pool (population plus random
additions) in `Increasing` mode; both use integer division. -/
def survivorCount (pe : PopulationEvolution) (initial_population pool_size : ℕ) : ℕ :=
  match pe with
  | .Constant => initial_population / 2
  | .Increasing => pool_size / 2

/-- Insertion step of the sort modelling `Vec::sort_by`: `before a b` tells
whether `a` may precede `b` (for individuals, descending fitness). -/
def insertSorted (before : α → α → Bool) (a : α) : List α → List α
  | [] => [a]
  | b :: rest => if before a b then a :: b :: rest else b :: insertSorted before a rest

/-- Models `Vec::sort_by` with comparator `before` (for populations, the
comparator `|a, b| b.cmp(a)`, i.e. descending fitness); the sorting algorithm
itself only reorders, so insertion sort is used. -/
def sortBy (before : α → α → Bool) : List α → List α
  | [] => []
  | a :: rest => insertSorted before a (sortBy before rest)

/-- Models `par_iter().chunks(2)` followed by the `p.len() == 2` guard:
consecutive disjoint pairs, dropping a trailing unpaired element. -/
def chunkPairs : List α → List (α × α)
  | a :: b :: rest => (a, b) :: chunkPairs rest
  | _ => []

namespace GASimulation

/-- Models one call of `GASimulation::next`, with the external randomness made
explicit: `random_additions` are the freshly generated individuals appended
this generation, and `sh1`, `sh2` are the two in-place shuffles. The step:
extend the population with the random additions and sort it; keep the top
`survivorCount` individuals; run two passes, each shuffling the kept vector in
place, pairing consecutive individuals, and collecting every `some` produced by
`crossover`; append all offspring and sort. -/
def next (cross : α → α → Option α) (before : α → α → Bool)
    (pe : PopulationEvolution) (initial_population : ℕ)
    (random_additions : List α) (sh1 sh2 : List α → List α)
    (population : List α) : List α :=
  let current_population := sortBy before (population ++ random_additions)
  let n_selected := survivorCount pe initial_population current_population.length
  let new_population := current_population.take n_selected
  let shuffled1 := sh1 new_population
  let offspring1 := (chunkPairs shuffled1).filterMap (fun p => cross p.1 p.2)
  let shuffled2 := sh2 shuffled1
  let offspring2 := (chunkPairs shuffled2).filterMap (fun p => cross p.1 p.2)
  sortBy before (shuffled2 ++ (offspring1 ++ offspring2))

/-- Iterates `GASimulation.next`, the per-step randomness indexed by the step
number: models the run loop of `GASimulation::run` calling `next` once per
generation. -/
def iterSteps (cross : α → α → Option α) (before : α → α → Bool)
    (pe : PopulationEvolution) (initial_population : ℕ)
    (radds : ℕ → List α) (sh1 sh2 : ℕ → List α → List α) :
    ℕ → List α → List α
  | 0, population => population
  | k + 1, population =>
      next cross before pe initial_population (radds k) (sh1 k) (sh2 k)
        (iterSteps cross before pe initial_population radds sh1 sh2 k population)

end GASimulation

/-- Population-size recurrence implied by `GASimulation.next` in `Increasing`
mode when every attempted crossover produces an offspring: from size `m`, the
pool is `m + r`, half of it survives, and each of the two pairing passes adds
one offspring per full pair of survivors. -/
def increasingSizes (n r : ℕ) : ℕ → ℕ
  | 0 => n
  | k + 1 =>
      let m := increasingSizes n r k
      (m + r) / 2 + 2 * (((m + r) / 2) / 2)

/-! ## src/simulation/algorithms/hillclimbing.rs -/

/-- Terminal condition of a hill-climbing run: the `while` guard failing
(`maxIterations`), the step size dropping below the minimum, or the budget of
consecutive unsuccessful iterations being spent. -/
inductive HCReason
  | maxIterations
  | stepTooSmall
  | failureBudget

/-- Final state of the hill-climbing loop: iteration counter, step size and
consecutive-failure counter at exit, plus the reason for exiting. -/
structure HCResult where
  iteration : ℕ
  step_size : ℚ
  unsuccessful_iters : ℕ
  reason : HCReason

namespace HillClimbingSimulation

/-- Models the loop of `HillClimbingSimulation::run`. The oracle `accept i`
records whether iteration `i`'s candidate satisfied
`candidate.fitness() > current.fitness()` (the candidate is produced by the
randomised `evolve`, external to this loop). `fuel` is the number of loop
entries still allowed by the `while iteration < max_iterations` guard. Each
entry first exits if the step size is below the minimum, then if the failure
budget is spent; an accepted iteration divides the step size by `0.95` and
resets the failure counter, a rejected one leaves the step size unchanged and
increments the failure counter; either way the iteration counter advances. -/
def runLoop (accept : ℕ → Bool) (max_unsuccessful_iters : ℕ) (min_step_size : ℚ) :
    ℕ → ℕ → ℚ → ℕ → HCResult
  | 0, iteration, step_size, unsuccessful_iters =>
      ⟨iteration, step_size, unsuccessful_iters, .maxIterations⟩
  | fuel + 1, iteration, step_size, unsuccessful_iters =>
      if step_size < min_step_size then
        ⟨iteration, step_size, unsuccessful_iters, .stepTooSmall⟩
      else if max_unsuccessful_iters ≤ unsuccessful_iters then
        ⟨iteration, step_size, unsuccessful_iters, .failureBudget⟩
      else if accept iteration then
        runLoop accept max_unsuccessful_iters min_step_size fuel (iteration + 1)
          (step_size / 0.95) 0
      else
        runLoop accept max_unsuccessful_iters min_step_size fuel (iteration + 1)
          step_size (unsuccessful_iters + 1)

end HillClimbingSimulation

/-- Models the scalar configuration of `HillClimberBuilder`. -/
structure HillClimberBuilder where
  init_step_size : ℚ
  max_iterations : ℕ
  min_step_size : ℚ
  max_unsuccessful_iters : ℕ

/-- Models `HillClimberBuilder::default`: initial step size `1.0`, at most
`3000` iterations, minimum step size `0.0001`, at most `5000` consecutive
unsuccessful iterations. -/
def HillClimberBuilder.default : HillClimberBuilder :=
  { init_step_size := 1, max_iterations := 3000, min_step_size := 0.0001,
    max_unsuccessful_iters := 5000 }

/-- Models `HillClimbingSimulation::run` from a freshly built simulation:
iteration counter 0, step size at its configured initial value, failure
counter 0. -/
def HillClimbingSimulation.run (accept : ℕ → Bool) (b : HillClimberBuilder) : HCResult :=
  HillClimbingSimulation.runLoop accept b.max_unsuccessful_iters b.min_step_size
    b.max_iterations 0 b.init_step_size 0

/-! ## Helper lemmas -/

theorem sigmoid_pos (x : ℝ) : 0 < sigmoid x := by
  unfold sigmoid
  positivity

theorem sigmoid_lt_one (x : ℝ) : sigmoid x < 1 := by
  unfold sigmoid
  rw [div_lt_one (by positivity)]
  have h := Real.exp_pos (-x)
  linarith

theorem two_sigmoid_bounds (x : ℝ) : 0 ≤ 2 * sigmoid x ∧ 2 * sigmoid x ≤ 2 := by
  have h1 := sigmoid_pos x
  have h2 := sigmoid_lt_one x
  constructor <;> linarith

theorem insertSorted_length (before : α → α → Bool) (a : α) :
    ∀ l : List α, (insertSorted before a l).length = l.length + 1
  | [] => rfl
  | b :: rest => by
    unfold insertSorted
    split
    · simp
    · simp [insertSorted_length before a rest]

theorem sortBy_length (before : α → α → Bool) :
    ∀ l : List α, (sortBy before l).length = l.length
  | [] => rfl
  | a :: rest => by
    unfold sortBy
    rw [insertSorted_length, sortBy_length before rest, List.length_cons]

theorem chunkPairs_length : ∀ l : List α, (chunkPairs l).length = l.length / 2
  | [] => by simp [chunkPairs]
  | [_] => by simp [chunkPairs]
  | _ :: _ :: rest => by
    unfold chunkPairs
    rw [List.length_cons, chunkPairs_length rest]
    simp only [List.length_cons]
    omega

theorem length_filterMap_of_isSome (f : α → Option β)
    (hf : ∀ a, (f a).isSome = true) :
    ∀ l : List α, (l.filterMap f).length = l.length
  | [] => rfl
  | a :: rest => by
    obtain ⟨b, hb⟩ := Option.isSome_iff_exists.mp (hf a)
    rw [List.filterMap_cons_some hb, List.length_cons, List.length_cons,
      length_filterMap_of_isSome f hf rest]

theorem next_length (cross : α → α → Option α) (before : α → α → Bool)
    (pe : PopulationEvolution) (initial_population : ℕ)
    (radds : List α) (sh1 sh2 : List α → List α) (pop : List α)
    (hcross : ∀ a b, (cross a b).isSome = true)
    (h1 : ∀ l, (sh1 l).length = l.length) (h2 : ∀ l, (sh2 l).length = l.length) :
    (GASimulation.next cross before pe initial_population radds sh1 sh2 pop).length =
      min (survivorCount pe initial_population (pop.length + radds.length))
          (pop.length + radds.length)
        + 2 * (min (survivorCount pe initial_population (pop.length + radds.length))
          (pop.length + radds.length) / 2) := by
  have hfm := length_filterMap_of_isSome (fun p : α × α => cross p.1 p.2)
    (fun p => hcross p.1 p.2)
  unfold GASimulation.next
  simp only [sortBy_length, List.length_append, List.length_take, chunkPairs_length,
    hfm, h1, h2]
  omega

theorem le_div_ninetyfive (t : ℚ) (h : 0 ≤ t) : t ≤ t / 0.95 := by
  rw [le_div_iff₀ (by norm_num : (0:ℚ) < 0.95)]
  nlinarith

theorem lt_div_ninetyfive (t : ℚ) (h : 0 < t) : t < t / 0.95 := by
  rw [lt_div_iff₀ (by norm_num : (0:ℚ) < 0.95)]
  nlinarith

theorem iterSteps_increasing_length {α : Type} (cross : α → α → Option α)
    (before : α → α → Bool) (initial_population : ℕ) (radds : ℕ → List α)
    (sh1 sh2 : ℕ → List α → List α) (pop : List α) (n r : ℕ)
    (hcross : ∀ a b, (cross a b).isSome = true)
    (hsh1 : ∀ i l, (sh1 i l).length = l.length)
    (hsh2 : ∀ i l, (sh2 i l).length = l.length)
    (hr : ∀ i, (radds i).length = r) (hpop : pop.length = n) :
    ∀ k, (GASimulation.iterSteps cross before PopulationEvolution.Increasing
        initial_population radds sh1 sh2 k pop).length = increasingSizes n r k := by
  intro k
  induction k with
  | zero => simpa [GASimulation.iterSteps, increasingSizes] using hpop
  | succ k ih =>
      simp only [GASimulation.iterSteps]
      rw [next_length _ _ _ _ _ _ _ _ hcross (hsh1 k) (hsh2 k), ih, hr k]
      simp only [survivorCount, increasingSizes]
      omega

/-! ## Claim theorems -/

/-- C3: for every pair of magnitude spectra and every pair of sample sequences
(hence for every genome whose fitness evaluation completes and every target
signal), the frequency-domain MSE fitness and the time-domain Euclidean
fitness lie within the interval from 0 to 2; in this real-valued model the
functions are total, so no NaN can be produced. -/
theorem fitness_bounded_zero_two (selfSpectrum otherSpectrum a b : List ℚ) :
    0 ≤ freq_domain_mse_fitness selfSpectrum otherSpectrum
  ∧ freq_domain_mse_fitness selfSpectrum otherSpectrum ≤ 2
  ∧ 0 ≤ time_domain_euclidean_fitness a b
  ∧ time_domain_euclidean_fitness a b ≤ 2 := by
  unfold freq_domain_mse_fitness time_domain_euclidean_fitness
  refine ⟨(two_sigmoid_bounds _).1, (two_sigmoid_bounds _).2,
    (two_sigmoid_bounds _).1, (two_sigmoid_bounds _).2⟩

/-- C7: `normalise` always returns exactly 16384 samples; the result is the
input truncated to its first 16384 samples followed by enough trailing zeros
to reach 16384 (so a long signal is truncated and a short one zero-padded);
and `normalise` is idempotent. -/
theorem normalise_length_truncate_pad_idempotent (s : List ℚ) :
    (normalise s).length = 16384
  ∧ normalise s = s.take 16384 ++ List.replicate (16384 - s.length) 0
  ∧ normalise (normalise s) = normalise s := by
  have hlen : (normalise s).length = 16384 := by
    unfold normalise
    split
    · next h => simp only [List.length_take]; omega
    · next h => simp only [List.length_append, List.length_replicate]; omega
  refine ⟨hlen, ?_, ?_⟩
  · unfold normalise
    split
    · next h => rw [Nat.sub_eq_zero_of_le h, List.replicate_zero, List.append_nil]
    · next h =>
        rw [List.take_of_length_le (le_of_lt (Nat.lt_of_not_le h))]
  · have key : ∀ t : List ℚ, t.length = 16384 → normalise t = t := by
      intro t ht
      unfold normalise
      rw [if_pos (le_of_eq ht.symm), ← ht, List.take_length]
    exact key _ hlen

/-- C8: the telemetry `std` field is computed by `utils::std`, which returns
the variance (the mean of the squares minus the square of the mean) and takes
no square root: on the fitness values 0 and 1 it returns 1/4, while the
standard deviation demanded by the spec (the square root of the mean of
squared deviations from the mean) is 1/2. -/
theorem std_is_variance_not_standard_deviation :
    std [0, 1] = 1 / 4
  ∧ standard_deviation_spec [0, 1] = 1 / 2
  ∧ std [0, 1] ≠ standard_deviation_spec [0, 1] := by
  have h1 : std [0, 1] = 1 / 4 := by
    unfold std mean
    norm_num
  have h2 : standard_deviation_spec [0, 1] = 1 / 2 := by
    have hinner : mean (List.map (fun f => (f - mean [0, 1]) ^ 2) [0, 1]) = (1 / 4 : ℝ) := by
      unfold mean
      norm_num
    unfold standard_deviation_spec
    rw [hinner, show (1 / 4 : ℝ) = (1 / 2) ^ 2 by norm_num,
      Real.sqrt_sq (by norm_num : (0:ℝ) ≤ 1 / 2)]
  refine ⟨h1, h2, ?_⟩
  rw [h1, h2]
  norm_num

/-- C2: while iterations remain and the failure budget is not spent, an
iteration whose candidate is accepted (fitness strictly greater than the
current individual's) divides the step size by 0.95 and resets the failure
counter, and division by 0.95 strictly increases a positive step size; a
rejected iteration leaves the step size unchanged; and whenever the step size
is below the configured minimum the loop terminates at once with reason
`stepTooSmall`, before proposing a candidate, even though iterations and the
failure budget remain. -/
theorem hillclimb_step_size_update (accept : ℕ → Bool) (max_unsuccessful_iters : ℕ)
    (min_step_size step_size : ℚ) (fuel iteration unsuccessful_iters : ℕ) :
    (¬ step_size < min_step_size → unsuccessful_iters < max_unsuccessful_iters →
      accept iteration = true →
      HillClimbingSimulation.runLoop accept max_unsuccessful_iters min_step_size
          (fuel + 1) iteration step_size unsuccessful_iters =
        HillClimbingSimulation.runLoop accept max_unsuccessful_iters min_step_size
          fuel (iteration + 1) (step_size / 0.95) 0)
  ∧ (0 < step_size → step_size < step_size / 0.95)
  ∧ (¬ step_size < min_step_size → unsuccessful_iters < max_unsuccessful_iters →
      accept iteration = false →
      HillClimbingSimulation.runLoop accept max_unsuccessful_iters min_step_size
          (fuel + 1) iteration step_size unsuccessful_iters =
        HillClimbingSimulation.runLoop accept max_unsuccessful_iters min_step_size
          fuel (iteration + 1) step_size (unsuccessful_iters + 1))
  ∧ (step_size < min_step_size →
      HillClimbingSimulation.runLoop accept max_unsuccessful_iters min_step_size
          (fuel + 1) iteration step_size unsuccessful_iters =
        ⟨iteration, step_size, unsuccessful_iters, HCReason.stepTooSmall⟩) := by
  refine ⟨?_, fun h => lt_div_ninetyfive _ h, ?_, ?_⟩
  · intro h1 h2 h3
    conv_lhs => unfold HillClimbingSimulation.runLoop
    rw [if_neg h1, if_neg (not_le.mpr h2), if_pos h3]
  · intro h1 h2 h3
    conv_lhs => unfold HillClimbingSimulation.runLoop
    rw [if_neg h1, if_neg (not_le.mpr h2), if_neg (by simp [h3])]
  · intro h1
    conv_lhs => unfold HillClimbingSimulation.runLoop
    rw [if_pos h1]

/-- Witness for C2 at the default configuration (3000 iterations, minimum step
size 1/10000, failure budget 5000) with initial step size 1: an accepting
iteration rewrites into the recursive call with step size 1 / 0.95, the step
size strictly grows, a rejecting iteration keeps step size 1, and a run whose
step size is 1/100000 terminates immediately with reason `stepTooSmall`. -/
theorem hillclimb_step_size_update_witness :
    (HillClimbingSimulation.runLoop (fun _ => true) 5000 (1 / 10000) (2999 + 1) 0 1 0 =
      HillClimbingSimulation.runLoop (fun _ => true) 5000 (1 / 10000) 2999 1 (1 / 0.95) 0)
  ∧ (1 : ℚ) < 1 / 0.95
  ∧ (HillClimbingSimulation.runLoop (fun _ => false) 5000 (1 / 10000) (2999 + 1) 0 1 0 =
      HillClimbingSimulation.runLoop (fun _ => false) 5000 (1 / 10000) 2999 1 1 1)
  ∧ (HillClimbingSimulation.runLoop (fun _ => true) 5000 (1 / 10000) (2999 + 1) 0
        (1 / 100000) 0 =
      ⟨0, 1 / 100000, 0, HCReason.stepTooSmall⟩) := by
  refine ⟨?_, ?_, ?_, ?_⟩
  · exact (hillclimb_step_size_update (fun _ => true) 5000 (1 / 10000) 1 2999 0 0).1
      (by norm_num) (by norm_num) rfl
  · exact (hillclimb_step_size_update (fun _ => true) 5000 (1 / 10000) 1 2999 0 0).2.1
      (by norm_num)
  · exact (hillclimb_step_size_update (fun _ => false) 5000 (1 / 10000) 1 2999 0 0).2.2.1
      (by norm_num) (by norm_num) rfl
  · exact (hillclimb_step_size_update (fun _ => true) 5000 (1 / 10000) (1 / 100000)
      2999 0 0).2.2.2 (by norm_num)

/-- C10: for a nonnegative step size at or above the configured minimum, the
hill-climbing loop never decreases the step size (the final step size is at
least the entry step size) and the loop never exits with reason
`stepTooSmall`: it ends by exhausting the iteration budget or the
consecutive-failure budget. Consequently the step-size termination can only
trigger when the configured initial step size is already below the configured
minimum. -/
theorem step_size_monotone_no_small_step_exit (accept : ℕ → Bool)
    (max_unsuccessful_iters : ℕ) (min_step_size step_size : ℚ)
    (fuel iteration unsuccessful_iters : ℕ)
    (h0 : 0 ≤ step_size) (hmin : min_step_size ≤ step_size) :
    step_size ≤ (HillClimbingSimulation.runLoop accept max_unsuccessful_iters
        min_step_size fuel iteration step_size unsuccessful_iters).step_size
  ∧ ((HillClimbingSimulation.runLoop accept max_unsuccessful_iters
        min_step_size fuel iteration step_size unsuccessful_iters).reason =
          HCReason.maxIterations
    ∨ (HillClimbingSimulation.runLoop accept max_unsuccessful_iters
        min_step_size fuel iteration step_size unsuccessful_iters).reason =
          HCReason.failureBudget) := by
  induction fuel generalizing iteration step_size unsuccessful_iters with
  | zero =>
      refine ⟨?_, Or.inl ?_⟩ <;> simp [HillClimbingSimulation.runLoop]
  | succ fuel ih =>
      unfold HillClimbingSimulation.runLoop
      rw [if_neg (not_lt.mpr hmin)]
      by_cases hbud : max_unsuccessful_iters ≤ unsuccessful_iters
      · rw [if_pos hbud]
        exact ⟨le_refl _, Or.inr rfl⟩
      · rw [if_neg hbud]
        by_cases hacc : accept iteration = true
        · rw [if_pos hacc]
          have hs : step_size ≤ step_size / 0.95 := le_div_ninetyfive _ h0
          have h := ih (step_size / 0.95) (iteration + 1) 0 (le_trans h0 hs)
            (le_trans hmin hs)
          exact ⟨le_trans hs h.1, h.2⟩
        · rw [if_neg hacc]
          exact ih step_size (iteration + 1) (unsuccessful_iters + 1) h0 hmin

/-- Witness for C10 at the default configuration: a run with initial step size
1, minimum 1/10000, 3000 iterations and failure budget 5000 (every candidate
rejected) keeps its step size at least 1 and exits by the iteration or
failure budget. -/
theorem step_size_monotone_no_small_step_exit_witness :
    (1 : ℚ) ≤ (HillClimbingSimulation.runLoop (fun _ => false) 5000 (1 / 10000)
        3000 0 1 0).step_size
  ∧ ((HillClimbingSimulation.runLoop (fun _ => false) 5000 (1 / 10000)
        3000 0 1 0).reason = HCReason.maxIterations
    ∨ (HillClimbingSimulation.runLoop (fun _ => false) 5000 (1 / 10000)
        3000 0 1 0).reason = HCReason.failureBudget) :=
  step_size_monotone_no_small_step_exit (fun _ => false) 5000 (1 / 10000) 1 3000 0 0
    (by norm_num) (by norm_num)

/-- C9: calling `evolve` on a subtractive individual whose envelope component
is present diverges (the unconditional `todo!()` panic of
`EnvelopeComponent::evolve` propagates), whatever the oscillator and filter
evolutions, the metric, or the step size — so a hill-climbing run over a
subtractive genome configured with an envelope aborts on its first proposal
step, which is exactly this `evolve` call. -/
theorem evolve_with_envelope_panics (oscEvolve : OscillatorComponent → OscillatorComponent)
    (filterEvolve : FilterComponent → FilterComponent)
    (calculate_fitness : SubtractiveIndividual → ℚ)
    (ind : SubtractiveIndividual) (step_size : ℚ) (env : EnvelopeComponent)
    (h : ind.envelope = some env) :
    SubtractiveIndividual.evolve oscEvolve filterEvolve calculate_fitness ind step_size =
      none := by
  unfold SubtractiveIndividual.evolve
  rw [h]
  simp [EnvelopeComponent.evolve]

/-- Witness for C9: a concrete subtractive individual carrying only an
envelope component; its `evolve` diverges. -/
theorem evolve_with_envelope_panics_witness :
    SubtractiveIndividual.evolve id id (fun _ => 0)
      { target := [], fitness_type := FitnessType.FreqDomainMSE, fitness := none,
        oscillator := none, envelope := some ⟨0, 0, 0, 0⟩, filter := none } 1 = none :=
  evolve_with_envelope_panics id id (fun _ => 0) _ 1 ⟨0, 0, 0, 0⟩ rfl

/-- C4: an additive individual without a cached fitness whose harmonics
component has some partial frequency (fundamental times harmonic index, for an
index between 1 and the number of amplitudes) at or above the Nyquist
frequency is scored exactly 0 by `fitness`, and `include_fitness` caches
exactly 0 — regardless of the metric evaluation `calculate_fitness`, which is
never invoked (the conclusion holds for every such function, so the genome is
neither rendered nor evaluated by a metric). -/
theorem invalid_harmonics_score_zero (calculate_fitness : AdditiveIndividual → ℚ)
    (ind : AdditiveIndividual) (har : HarmonicsComponent) (i : ℕ)
    (hhar : ind.harmonics = some har) (hcache : ind.fitness = none)
    (h1 : 1 ≤ i) (h2 : i ≤ har.amplitudes.length)
    (hfreq : (SAMPLE_RATE : ℚ) / 2 ≤ har.freq * (i : ℚ)) :
    AdditiveIndividual.fitnessOf calculate_fitness ind = 0
  ∧ (AdditiveIndividual.include_fitness calculate_fitness ind).fitness = some 0 := by
  have hvalid : ind.harmonics_are_valid = false := by
    unfold AdditiveIndividual.harmonics_are_valid
    rw [hhar]
    rw [List.all_eq_false]
    refine ⟨i, ?_, ?_⟩
    · rw [List.mem_range'_1]
      omega
    · simp only [decide_eq_true_eq, not_lt]
      exact hfreq
  constructor
  · unfold AdditiveIndividual.fitnessOf
    rw [hcache]
    simp [hvalid]
  · unfold AdditiveIndividual.include_fitness
    simp [hvalid]

/-- Witness for C4: the harmonics component with fundamental 22050 and a
single amplitude has its first partial exactly at the Nyquist frequency; the
individual scores 0 even under a metric evaluation that would return 37. -/
theorem invalid_harmonics_score_zero_witness :
    AdditiveIndividual.fitnessOf (fun _ => 37)
      { target := [], fitness_type := FitnessType.FreqDomainMSE, fitness := none,
        harmonics := some ⟨22050, [1]⟩ } = 0
  ∧ (AdditiveIndividual.include_fitness (fun _ => 37)
      { target := [], fitness_type := FitnessType.FreqDomainMSE, fitness := none,
        harmonics := some ⟨22050, [1]⟩ }).fitness = some 0 :=
  invalid_harmonics_score_zero (fun _ => 37) _ ⟨22050, [1]⟩ 1 rfl rfl (by norm_num)
    (by simp) (by norm_num [SAMPLE_RATE])

/-- C5: individual-level crossover never fails, for either layout and for
every pair of parents and every mutation rate: the subtractive crossover
always returns some offspring, namely `include_fitness` applied to a freshly
built individual with no cached fitness (so the offspring's fitness is freshly
computed), whose filter gene is exactly the result of the per-component
combine — absent whenever that combine returns none, as it does for two
filter components of different filter families (low-pass with high-pass
shown); the additive crossover likewise always returns some freshly scored
offspring. -/
theorem crossover_never_fails (calculate_fitness : SubtractiveIndividual → ℚ)
    (calculate_fitnessA : AdditiveIndividual → ℚ)
    (self other : SubtractiveIndividual) (selfA otherA : AdditiveIndividual) (r : ℚ)
    (dOsc : Fin 7 → RWDraw) (dEnv : Fin 4 → RWDraw) (dFil : Fin 3 → RWDraw)
    (dFreq : RWDraw) (dAmp : ℕ → RWDraw) :
    (∃ base : SubtractiveIndividual,
        SubtractiveIndividual.crossover calculate_fitness self other r dOsc dEnv dFil =
          some (SubtractiveIndividual.include_fitness calculate_fitness base)
      ∧ base.fitness = none
      ∧ base.filter = (match self.filter, other.filter with
          | some s, some o => s.combine o r dFil
          | _, _ => none))
  ∧ (∀ c1 b1 c2 b2 : ℚ,
      FilterComponent.combine (FilterComponent.LowPass c1 b1)
        (FilterComponent.HighPass c2 b2) r dFil = none)
  ∧ (∃ baseA : AdditiveIndividual,
      AdditiveIndividual.crossover calculate_fitnessA selfA otherA r dFreq dAmp =
        some (AdditiveIndividual.include_fitness calculate_fitnessA baseA)
      ∧ baseA.fitness = none) := by
  refine ⟨⟨_, rfl, rfl, rfl⟩, fun c1 b1 c2 b2 => rfl, ⟨_, rfl, rfl⟩⟩

/-- C1 counterexample: in `Constant` mode with initial population size 2 and
4 random additions per generation (with a total crossover, as for both
concrete Individual implementations), one call of the per-generation step does
not preserve the population size: only `2 / 2 = 1` survivor is selected, a
single individual forms no pair, and the new population has size 1, not 2. -/
theorem constant_population_not_preserved :
    (GASimulation.next (fun a b : ℕ => some (a + b)) (fun a b => decide (b ≤ a))
      PopulationEvolution.Constant 2 [10, 11, 12, 13] id id [1, 2]).length ≠ 2 := by
  decide

/-- C1 amended: in `Constant` mode, for every number of random additions per
generation (even varying per step), every total crossover and every
length-preserving shuffle, if the initial population size `N` is divisible
by 4 then the population size equals `N` after every call of the
per-generation step. -/
theorem constant_population_preserved_of_dvd_four {α : Type} (cross : α → α → Option α)
    (before : α → α → Bool) (N : ℕ) (radds : ℕ → List α)
    (sh1 sh2 : ℕ → List α → List α) (population : List α)
    (hcross : ∀ a b, (cross a b).isSome = true)
    (hsh1 : ∀ i l, (sh1 i l).length = l.length)
    (hsh2 : ∀ i l, (sh2 i l).length = l.length)
    (h4 : 4 ∣ N) (hpop : population.length = N) (k : ℕ) :
    (GASimulation.iterSteps cross before PopulationEvolution.Constant N radds sh1 sh2
      k population).length = N := by
  induction k with
  | zero => simpa [GASimulation.iterSteps] using hpop
  | succ k ih =>
      simp only [GASimulation.iterSteps]
      rw [next_length _ _ _ _ _ _ _ _ hcross (hsh1 k) (hsh2 k), ih]
      simp only [survivorCount]
      omega

/-- Witness for the amended C1: initial population size 4 (divisible by 4),
one random addition per generation; after 3 steps the population size is
still 4. -/
theorem constant_population_preserved_witness :
    (GASimulation.iterSteps (fun a b : ℕ => some (a + b)) (fun a b => decide (b ≤ a))
      PopulationEvolution.Constant 4 (fun _ => [7]) (fun _ => id) (fun _ => id)
      3 [1, 2, 3, 4]).length = 4 :=
  constant_population_preserved_of_dvd_four (fun a b : ℕ => some (a + b))
    (fun a b => decide (b ≤ a)) 4 (fun _ => [7]) (fun _ => id) (fun _ => id)
    [1, 2, 3, 4] (fun _ _ => rfl) (fun _ _ => rfl) (fun _ _ => rfl)
    (by norm_num) (by norm_num) 3

/-- C6: in `Increasing` mode with initial population size 100, for every total
crossover and every length-preserving shuffle, with 4 random additions per
generation the population sizes after steps 1, 2, 3 are 104, 108, 112, and
with 3 random additions they are 101, 104, 105 (odd pools round down). -/
theorem increasing_population_sizes {α : Type} (cross : α → α → Option α)
    (before : α → α → Bool) (r4 r3 : ℕ → List α) (sh1 sh2 : ℕ → List α → List α)
    (pop4 pop3 : List α)
    (hcross : ∀ a b, (cross a b).isSome = true)
    (hsh1 : ∀ i l, (sh1 i l).length = l.length)
    (hsh2 : ∀ i l, (sh2 i l).length = l.length)
    (hr4 : ∀ i, (r4 i).length = 4) (hr3 : ∀ i, (r3 i).length = 3)
    (hp4 : pop4.length = 100) (hp3 : pop3.length = 100) :
    (GASimulation.iterSteps cross before PopulationEvolution.Increasing 100 r4 sh1 sh2
        1 pop4).length = 104
  ∧ (GASimulation.iterSteps cross before PopulationEvolution.Increasing 100 r4 sh1 sh2
        2 pop4).length = 108
  ∧ (GASimulation.iterSteps cross before PopulationEvolution.Increasing 100 r4 sh1 sh2
        3 pop4).length = 112
  ∧ (GASimulation.iterSteps cross before PopulationEvolution.Increasing 100 r3 sh1 sh2
        1 pop3).length = 101
  ∧ (GASimulation.iterSteps cross before PopulationEvolution.Increasing 100 r3 sh1 sh2
        2 pop3).length = 104
  ∧ (GASimulation.iterSteps cross before PopulationEvolution.Increasing 100 r3 sh1 sh2
        3 pop3).length = 105 := by
  have H4 := iterSteps_increasing_length cross before 100 r4 sh1 sh2 pop4 100 4
    hcross hsh1 hsh2 hr4 hp4
  have H3 := iterSteps_increasing_length cross before 100 r3 sh1 sh2 pop3 100 3
    hcross hsh1 hsh2 hr3 hp3
  refine ⟨?_, ?_, ?_, ?_, ?_, ?_⟩
  · rw [H4 1]; decide
  · rw [H4 2]; decide
  · rw [H4 3]; decide
  · rw [H3 1]; decide
  · rw [H3 2]; decide
  · rw [H3 3]; decide

/-- Witness for C6 on concrete data: population of 100 naturals, random
additions of 4 (respectively 3) zeros per generation, identity shuffles and a
total crossover. -/
theorem increasing_population_sizes_witness :
    (GASimulation.iterSteps (fun a b : ℕ => some (a + b)) (fun a b => decide (b ≤ a))
        PopulationEvolution.Increasing 100 (fun _ => [0, 0, 0, 0]) (fun _ => id)
        (fun _ => id) 1 (List.replicate 100 0)).length = 104
  ∧ (GASimulation.iterSteps (fun a b : ℕ => some (a + b)) (fun a b => decide (b ≤ a))
        PopulationEvolution.Increasing 100 (fun _ => [0, 0, 0, 0]) (fun _ => id)
        (fun _ => id) 2 (List.replicate 100 0)).length = 108
  ∧ (GASimulation.iterSteps (fun a b : ℕ => some (a + b)) (fun a b => decide (b ≤ a))
        PopulationEvolution.Increasing 100 (fun _ => [0, 0, 0, 0]) (fun _ => id)
        (fun _ => id) 3 (List.replicate 100 0)).length = 112
  ∧ (GASimulation.iterSteps (fun a b : ℕ => some (a + b)) (fun a b => decide (b ≤ a))
        PopulationEvolution.Increasing 100 (fun _ => [0, 0, 0]) (fun _ => id)
        (fun _ => id) 1 (List.replicate 100 0)).length = 101
  ∧ (GASimulation.iterSteps (fun a b : ℕ => some (a + b)) (fun a b => decide (b ≤ a))
        PopulationEvolution.Increasing 100 (fun _ => [0, 0, 0]) (fun _ => id)
        (fun _ => id) 2 (List.replicate 100 0)).length = 104
  ∧ (GASimulation.iterSteps (fun a b : ℕ => some (a + b)) (fun a b => decide (b ≤ a))
        PopulationEvolution.Increasing 100 (fun _ => [0, 0, 0]) (fun _ => id)
        (fun _ => id) 3 (List.replicate 100 0)).length = 105 :=
  increasing_population_sizes (fun a b : ℕ => some (a + b)) (fun a b => decide (b ≤ a))
    (fun _ => [0, 0, 0, 0]) (fun _ => [0, 0, 0]) (fun _ => id) (fun _ => id)
    (List.replicate 100 0) (List.replicate 100 0) (fun _ _ => rfl) (fun _ _ => rfl)
    (fun _ _ => rfl) (fun _ => rfl) (fun _ => rfl) (by simp) (by simp)

end GaSynth
